import Mathlib

/-
Verification of the Backpack override detector userscript
(src/backpack-override-detector.js) against its design specification.

The script is embedded shallowly: CSSOM rules become lists of
(property, value) string pairs (the source compares values through
toString(), i.e. on their flattened string forms), the DOM becomes a
list of elements carrying a tag name and a class list, and the
exception behaviour of style-sheet access and selector matching is
made explicit through an outcome type.
-/

set_option maxRecDepth 8000

namespace BackpackOverrideDetector

/-- A CSS rule as seen through the CSSOM: its selector text and the
entries of its style map, with every value already flattened to the
string form the source compares (getValue v = v.toString()). -/
structure CSSRule where
  selectorText : String
  styleMap : List (String × String)
deriving DecidableEq

/-- A reported property override: the object literal built at the end of
the per-property loop in scan(): key, before value, after value, and the
selector stored in its rule field. -/
structure Override where
  key : String
  before : String
  after : String
  rule : String
deriving DecidableEq

/-- JavaScript String.prototype.startsWith, on the character list of the
string (so that every use of it computes by kernel reduction). -/
def strStartsWith (s p : String) : Bool :=
  p.data.isPrefixOf s.data

/-- isBackpackClassRule from the source: the selector text starts
with ".Bpk". -/
def isBackpackClassRule (rule : CSSRule) : Bool :=
  strStartsWith rule.selectorText ".Bpk"

/-- The character class [a-zA-Z0-9_-] of the single-class-selector
regular expression used by isNonBackpackClassRule. -/
def isClassNameChar (c : Char) : Bool :=
  c.isAlpha || c.isDigit || c == '_' || c == '-'

/-- isNonBackpackClassRule from the source: the selector text starts with
"." and fits the anchored regular expression for a single class
selector (a dot followed by one or more class-name characters). -/
def isNonBackpackClassRule (rule : CSSRule) : Bool :=
  strStartsWith rule.selectorText "." &&
    (decide (0 < (rule.selectorText.data.drop 1).length) &&
      (rule.selectorText.data.drop 1).all isClassNameChar)

/-- hasOwnNonBackpackClass from the source, on an element's class list:
some class name does not start with "Bpk". -/
def hasOwnNonBackpackClass (classList : List String) : Bool :=
  classList.any (fun cn => !(strStartsWith cn "Bpk"))

/-- The for-loop over afterRules inside scan(): walk the (already
reversed) after-rules; for the first one whose style map contains the
key, return no override when that rule is not a Backpack rule or when
its value equals the intended one, and otherwise return the override
record, whose rule field the source fills with the selector of the
rule currently driving the reduce (the author rule). -/
def findPropertyOverride (ruleSelector key value : String) :
    List CSSRule → Option Override
  | [] => none
  | afterRule :: rest =>
    match afterRule.styleMap.find? (fun bp => bp.1 == key) with
    | none => findPropertyOverride ruleSelector key value rest
    | some matchingProp =>
      if !(strStartsWith afterRule.selectorText ".Bpk") then
        none
      else if matchingProp.2 == value then
        none
      else
        some ⟨key, value, matchingProp.2, ruleSelector⟩

/-- The body of the per-property map inside scan(): take the rules
strictly after the current index, reverse them (the last rule to set a
property is the one that takes priority), and run the after-rule loop. -/
def resolveProperty (rules : List CSSRule) (index : Nat)
    (ruleSelector key value : String) : Option Override :=
  findPropertyOverride ruleSelector key value ((rules.drop (index + 1)).reverse)

/-- The overridden list computed for one rule of the reduce in scan():
map every style-map entry through the per-property resolution and keep
the defined results. -/
def overriddenForRule (rules : List CSSRule) (index : Nat) (rule : CSSRule) :
    List Override :=
  (rule.styleMap.map
    (fun kv => resolveProperty rules index rule.selectorText kv.1 kv.2)).filterMap id

/-- One step of the reduce in scan(): skip the rule when it is a
Backpack class rule or not a single-class non-Backpack rule; otherwise
append the overridden properties found for it (when any). -/
def overrideStep (rules : List CSSRule) (acc : List Override)
    (ir : Nat × CSSRule) : List Override :=
  if isBackpackClassRule ir.2 || !isNonBackpackClassRule ir.2 then
    acc
  else
    let overridden := overriddenForRule rules ir.1 ir.2
    if 0 < overridden.length then acc ++ overridden else acc

/-- The whole reduce in scan(): fold the override step over the matched
rules together with their indices, starting from the empty list. -/
def overriddenProperties (rules : List CSSRule) : List Override :=
  rules.enum.foldl (overrideStep rules) []

/-- Whether a rule's style map contains an entry for the given key,
written exactly as the source looks entries up. -/
def declares (r : CSSRule) (key : String) : Bool :=
  (r.styleMap.find? (fun bp => bp.1 == key)).isSome

/-- Outcome of one call el.matches(selectorText) of the DOM, for one selector:
either a boolean answer, or the exception the DOM throws on a selector
it cannot evaluate. -/
inductive MatchOutcome where
  | ok (matched : Bool)
  | malformed
deriving DecidableEq

/-- A style sheet: whether its rule list can be read (reading the rules
of a cross-origin sheet throws), and its rules in declaration order. -/
structure Sheet where
  accessible : Bool
  rules : List CSSRule
deriving DecidableEq

/-- The inner forEach over one sheet's rules in findCssRules, for a fixed
element whose matcher is m: push every rule whose selector fits.  The
loop runs inside the per-sheet try block, so the exception thrown by a
malformed selector abandons the remaining rules of this sheet while the
rules already pushed stay collected. -/
def collectMatchingRules (m : String → MatchOutcome) :
    List CSSRule → List CSSRule
  | [] => []
  | rule :: rest =>
    match m rule.selectorText with
    | .malformed => []
    | .ok true => rule :: collectMatchingRules m rest
    | .ok false => collectMatchingRules m rest

/-- findCssRules from the source, for a fixed element whose matcher is m:
fold over all sheets; a sheet whose rules cannot be read contributes
nothing, any other sheet contributes its matching rules up to the first
malformed selector. -/
def findCssRules (m : String → MatchOutcome) (sheets : List Sheet) :
    List CSSRule :=
  sheets.foldl
    (fun ret sheet =>
      if sheet.accessible then ret ++ collectMatchingRules m sheet.rules
      else ret)
    []

/-- A DOM element as far as scan() inspects it: its tag name and its
class list. -/
structure Element where
  tagName : String
  classList : List String
deriving DecidableEq

/-- The tag names listed in the querySelectorAll call of scan(). -/
def scanTagNames : List String :=
  ["div", "span", "h1", "h2", "h3", "h4", "li", "a", "button"]

/-- One entry of the list scan() returns. -/
structure ScanResult where
  element : Element
  overriddenProperties : List Override
deriving DecidableEq

/-- scan() from the source over an explicit document model: the document
is the list of DOM elements in document order, elementMatches gives each
element's selector matcher, and sheets is the style-sheet list.  The
querySelectorAll call keeps the elements whose tag is in its selector
list; the map turns non-candidate elements into nothing (the source
returns false for them) and computes the overridden properties of the
others; the final filter keeps the results that exist and have a
non-empty override list. -/
def scan (elementMatches : Element → String → MatchOutcome) (sheets : List Sheet)
    (doc : List Element) : List ScanResult :=
  let elements := doc.filter (fun e => scanTagNames.contains e.tagName)
  ((elements.map
      (fun e =>
        if !hasOwnNonBackpackClass e.classList then
          none
        else
          some { element := e,
                 overriddenProperties :=
                   overriddenProperties (findCssRules (elementMatches e) sheets) })).filterMap
    id).filter (fun p => decide (0 < p.overriddenProperties.length))

/-- The mutable state of the re-scan scheduling in the source: whether
the updateTimeout variable holds a (truthy) timer id, whether a
setTimeout callback is still pending, and how many times update() — and
with it scan() — has run in response to mutation signals. -/
structure UpdateState where
  updateTimeout : Bool
  timerPending : Bool
  updates : Nat
deriving DecidableEq

/-- throttledUpdate from the source: return at once when updateTimeout is
set; otherwise store a timer id in updateTimeout and schedule the
callback. -/
def throttledUpdate (s : UpdateState) : UpdateState :=
  if s.updateTimeout then s
  else { s with updateTimeout := true, timerPending := true }

/-- The setTimeout callback of throttledUpdate: it runs clearTimeout on
the already-fired timer and calls update(); the updateTimeout variable is
never set back to undefined, so it keeps holding the stale timer id. -/
def timeoutCallback (s : UpdateState) : UpdateState :=
  if s.timerPending then
    { s with timerPending := false, updates := s.updates + 1 }
  else s

/-- The two events that drive the scheduling state: a mutation signal
delivered by the MutationObserver, and the settling timer firing. -/
inductive DebounceEvent where
  | mutationSignal
  | timerFire
deriving DecidableEq

/-- Run a sequence of scheduling events from a given state. -/
def runEvents (s : UpdateState) : List DebounceEvent → UpdateState
  | [] => s
  | e :: evs =>
    match e with
    | .mutationSignal => runEvents (throttledUpdate s) evs
    | .timerFire => runEvents (timeoutCallback s) evs

/-- The scheduling state right after the script has installed its
MutationObserver: no timer id stored, no callback pending, no
mutation-triggered update yet. -/
def initialUpdateState : UpdateState :=
  ⟨false, false, 0⟩

/-- A registered event handler, for the EventEmitter model: an
identifier recorded when the handler body runs, and whether the body
ends by throwing. -/
structure Handler where
  hid : Nat
  throws : Bool
deriving DecidableEq

/-- Invoking one handler: its body runs (its identifier is the payload
of either outcome) and ends normally or with a thrown exception. -/
def invokeHandler (h : Handler) : Except Nat Nat :=
  if h.throws then .error h.hid else .ok h.hid

/-- What EventEmitter.send leaves behind: which handlers were invoked,
in order, and which exceptions console.error logged. -/
structure SendTrace where
  invoked : List Nat
  logged : List Nat
deriving DecidableEq

/-- The forEach of EventEmitter.send: each handler is invoked inside its
own try block, so a thrown exception is logged and the loop moves on to
the next handler. -/
def sendLoop : List Handler → SendTrace → SendTrace
  | [], t => t
  | h :: rest, t =>
    match invokeHandler h with
    | .ok i => sendLoop rest { t with invoked := t.invoked ++ [i] }
    | .error e =>
      sendLoop rest { invoked := t.invoked ++ [e], logged := t.logged ++ [e] }

/-- EventEmitter.send from the source: return at once on a missing event
name or an event with no handler list; otherwise run every registered
handler under its own try/catch.  The call's value is the Unit the
source's undefined return models, produced whatever the handlers do. -/
def send (eventValid : Bool) (handlers : Option (List Handler)) :
    Unit × SendTrace :=
  if !eventValid then ((), ⟨[], []⟩)
  else
    match handlers with
    | none => ((), ⟨[], []⟩)
    | some hs => ((), sendLoop hs ⟨[], []⟩)

/-- Any override returned by the after-rule loop carries the key, the
intended value and the selector the loop was started with. -/
theorem findPropertyOverride_some_fields (ruleSelector key value : String)
    (l : List CSSRule) (o : Override)
    (h : findPropertyOverride ruleSelector key value l = some o) :
    o.key = key ∧ o.before = value ∧ o.rule = ruleSelector := by
  induction l with
  | nil => simp [findPropertyOverride] at h
  | cons afterRule rest ih =>
    simp only [findPropertyOverride] at h
    split at h
    · exact ih h
    · split at h
      · simp at h
      · split at h
        · simp at h
        · cases h
          exact ⟨rfl, rfl, rfl⟩

/-- When no after-rule declares the key, the after-rule loop returns no
override. -/
theorem findPropertyOverride_of_none_declares (ruleSelector key value : String)
    (l : List CSSRule) (h : l.find? (fun q => declares q key) = none) :
    findPropertyOverride ruleSelector key value l = none := by
  induction l with
  | nil => rfl
  | cons afterRule rest ih =>
    rw [List.find?_cons] at h
    cases hd : declares afterRule key with
    | true => rw [hd] at h; simp at h
    | false =>
      rw [hd] at h
      simp only [cond_false] at h
      have hfind : afterRule.styleMap.find? (fun bp => bp.1 == key) = none := by
        unfold declares at hd
        exact Option.not_isSome_iff_eq_none.mp (by simp [hd])
      simp only [findPropertyOverride, hfind]
      exact ih h

/-- When the first after-rule (in the traversal order of the loop) that
declares the key is not a Backpack rule, the loop returns no override. -/
theorem findPropertyOverride_of_first_nonBackpack
    (ruleSelector key value : String) (l : List CSSRule) (r : CSSRule)
    (hfirst : l.find? (fun q => declares q key) = some r)
    (hnb : strStartsWith r.selectorText ".Bpk" = false) :
    findPropertyOverride ruleSelector key value l = none := by
  induction l with
  | nil => simp at hfirst
  | cons afterRule rest ih =>
    rw [List.find?_cons] at hfirst
    cases hd : declares afterRule key with
    | true =>
      rw [hd] at hfirst
      simp only [cond_true, Option.some.injEq] at hfirst
      subst hfirst
      unfold declares at hd
      obtain ⟨mp, hmp⟩ := Option.isSome_iff_exists.mp hd
      simp [findPropertyOverride, hmp, hnb]
    | false =>
      rw [hd] at hfirst
      simp only [cond_false] at hfirst
      have hfind : afterRule.styleMap.find? (fun bp => bp.1 == key) = none := by
        unfold declares at hd
        exact Option.not_isSome_iff_eq_none.mp (by simp [hd])
      simp only [findPropertyOverride, hfind]
      exact ih hfirst

/-- When the first after-rule (in the traversal order of the loop) that
declares the key is a Backpack rule, the loop compares its stored value
with the intended one and reports an override exactly when they differ. -/
theorem findPropertyOverride_of_first_backpack
    (ruleSelector key value : String) (l : List CSSRule) (r : CSSRule)
    (mp : String × String)
    (hfirst : l.find? (fun q => declares q key) = some r)
    (hb : strStartsWith r.selectorText ".Bpk" = true)
    (hmp : r.styleMap.find? (fun bp => bp.1 == key) = some mp) :
    findPropertyOverride ruleSelector key value l =
      (if mp.2 == value then none
       else some ⟨key, value, mp.2, ruleSelector⟩) := by
  induction l with
  | nil => simp at hfirst
  | cons afterRule rest ih =>
    rw [List.find?_cons] at hfirst
    cases hd : declares afterRule key with
    | true =>
      rw [hd] at hfirst
      simp only [cond_true, Option.some.injEq] at hfirst
      subst hfirst
      simp [findPropertyOverride, hmp, hb]
    | false =>
      rw [hd] at hfirst
      simp only [cond_false] at hfirst
      have hfind : afterRule.styleMap.find? (fun bp => bp.1 == key) = none := by
        unfold declares at hd
        exact Option.not_isSome_iff_eq_none.mp (by simp [hd])
      simp only [findPropertyOverride, hfind]
      exact ih hfirst

/-- C1 counterexample: in the spec's own example — author rule .Custom
with margin 0, then non-framework .Legacy with margin 4px, then
framework .Bpk_X with margin 8px — the code does report an override for
margin on .Custom (the reverse scan meets .Bpk_X first), while the claim
says none is reported. -/
theorem C1_counterexample :
    (⟨"margin", "0", "8px", ".Custom"⟩ : Override) ∈
      overriddenProperties
        [⟨".Custom", [("margin", "0")]⟩,
         ⟨".Legacy", [("margin", "4px")]⟩,
         ⟨".Bpk_X", [("margin", "8px")]⟩] := by
  decide

/-- C1 (amended): no override is reported for a property exactly when
the after-rule met first in the reverse-order scan — the last-applied
after-rule declaring the property, the one whose value takes effect —
is a non-Framework rule; a non-Framework after-rule that sits at an
earlier cascade position than a later Framework after-rule declaring
the property does not prevent the override. -/
theorem C1_theorem (rules : List CSSRule) (index : Nat)
    (ruleSelector key value : String) (r : CSSRule)
    (hfirst : ((rules.drop (index + 1)).reverse).find?
        (fun q => declares q key) = some r)
    (hnb : strStartsWith r.selectorText ".Bpk" = false) :
    resolveProperty rules index ruleSelector key value = none :=
  findPropertyOverride_of_first_nonBackpack ruleSelector key value
    ((rules.drop (index + 1)).reverse) r hfirst hnb

/-- C1 witness: with the non-framework .Legacy placed after the
framework .Bpk_X, .Legacy is the last after-rule declaring margin, and
no override is reported for .Custom's margin. -/
theorem C1_witness :
    (((([⟨".Custom", [("margin", "0")]⟩, ⟨".Bpk_X", [("margin", "8px")]⟩,
        ⟨".Legacy", [("margin", "4px")]⟩] : List CSSRule).drop 1).reverse).find?
      (fun q => declares q "margin") =
      some ⟨".Legacy", [("margin", "4px")]⟩) ∧
    resolveProperty
      [⟨".Custom", [("margin", "0")]⟩, ⟨".Bpk_X", [("margin", "8px")]⟩,
       ⟨".Legacy", [("margin", "4px")]⟩] 0 ".Custom" "margin" "0" = none :=
  ⟨by decide,
   C1_theorem _ 0 ".Custom" "margin" "0" ⟨".Legacy", [("margin", "4px")]⟩
     (by decide) (by decide)⟩

/-- Anything in the fold of the reduce comes from the accumulator or
from the overridden list of one of the processed rules, which then is a
non-Backpack single-class rule. -/
theorem mem_foldl_overrideStep (rules : List CSSRule)
    (l : List (Nat × CSSRule)) (acc : List Override) (o : Override)
    (h : o ∈ l.foldl (overrideStep rules) acc) :
    o ∈ acc ∨ ∃ ir ∈ l, isBackpackClassRule ir.2 = false ∧
      isNonBackpackClassRule ir.2 = true ∧
      o ∈ overriddenForRule rules ir.1 ir.2 := by
  induction l generalizing acc with
  | nil => exact Or.inl h
  | cons ir rest ih =>
    rw [List.foldl_cons] at h
    rcases ih (overrideStep rules acc ir) h with hacc | ⟨jr, hjr, h1, h2, h3⟩
    · cases hb : isBackpackClassRule ir.2 with
      | true =>
        simp [overrideStep, hb] at hacc
        exact Or.inl hacc
      | false =>
        cases hn : isNonBackpackClassRule ir.2 with
        | false =>
          simp [overrideStep, hb, hn] at hacc
          exact Or.inl hacc
        | true =>
          unfold overrideStep at hacc
          rw [show (isBackpackClassRule ir.2 || !isNonBackpackClassRule ir.2) =
            false by simp [hb, hn]] at hacc
          simp only [Bool.false_eq_true, if_false] at hacc
          split at hacc
          · rcases List.mem_append.mp hacc with h4 | h4
            · exact Or.inl h4
            · exact Or.inr ⟨ir, List.mem_cons_self _ _, hb, hn, h4⟩
          · exact Or.inl hacc
    · exact Or.inr ⟨jr, List.mem_cons_of_mem _ hjr, h1, h2, h3⟩

/-- C2 counterexample: for .Card overridden by .Bpk_Button, the emitted
record's rule field is ".Card", the author rule's selector, not
".Bpk_Button" as the claim states. -/
theorem C2_counterexample :
    (overriddenProperties
        [⟨".Card", [("color", "red")]⟩,
         ⟨".Bpk_Button", [("color", "blue")]⟩]).map (fun o => o.rule) =
      [".Card"] ∧ (".Card" : String) ≠ ".Bpk_Button" := by
  decide

/-- C2 (amended): the rule field of every emitted PropertyOverride is
the selector of the AuthorCandidate rule whose property was overridden —
a non-Backpack single-class selector — not the selector of the
overriding Framework rule. -/
theorem C2_theorem (rules : List CSSRule) (o : Override)
    (h : o ∈ overriddenProperties rules) :
    ∃ ir ∈ rules.enum, isBackpackClassRule ir.2 = false ∧
      isNonBackpackClassRule ir.2 = true ∧ o.rule = ir.2.selectorText := by
  rw [overriddenProperties] at h
  rcases mem_foldl_overrideStep rules rules.enum [] o h with hacc | ⟨ir, hir, h1, h2, h3⟩
  · simp at hacc
  · refine ⟨ir, hir, h1, h2, ?_⟩
    unfold overriddenForRule at h3
    rw [List.mem_filterMap] at h3
    obtain ⟨a, ha, hid⟩ := h3
    rw [List.mem_map] at ha
    obtain ⟨kv, _, hfa⟩ := ha
    have hsome : resolveProperty rules ir.1 ir.2.selectorText kv.1 kv.2 = some o := by
      rw [hfa]; exact hid
    exact (findPropertyOverride_some_fields _ _ _ _ _ hsome).2.2

/-- C2 witness: the override emitted in the .Card example indeed carries
the selector of the processed author rule. -/
theorem C2_witness :
    ∃ ir ∈ ([⟨".Card", [("color", "red")]⟩,
             ⟨".Bpk_Button", [("color", "blue")]⟩] : List CSSRule).enum,
      isBackpackClassRule ir.2 = false ∧ isNonBackpackClassRule ir.2 = true ∧
      (⟨"color", "red", "blue", ".Card"⟩ : Override).rule = ir.2.selectorText :=
  C2_theorem _ _ (by decide)

/-- When no style-map entry of the processed rule has the given key, the
overridden list built from those entries has no record with that key. -/
theorem filter_key_resolve_of_no_entry (rules : List CSSRule) (index : Nat)
    (sel key : String) (sm : List (String × String))
    (hk : ∀ kv ∈ sm, kv.1 ≠ key) :
    ((sm.map (fun kv => resolveProperty rules index sel kv.1 kv.2)).filterMap
        id).filter (fun o => o.key == key) = [] := by
  induction sm with
  | nil => rfl
  | cons kv rest ih =>
    simp only [List.map_cons, List.filterMap_cons, id_eq]
    cases hr : resolveProperty rules index sel kv.1 kv.2 with
    | none => exact ih (fun a ha => hk a (List.mem_cons_of_mem _ ha))
    | some o =>
      rw [List.filter_cons]
      have hkey : o.key = kv.1 := (findPropertyOverride_some_fields _ _ _ _ _ hr).1
      have hfalse : (o.key == key) = false := by
        rw [hkey]
        exact beq_eq_false_iff_ne.mpr (hk kv (List.mem_cons_self _ _))
      rw [hfalse]
      simp only [Bool.false_eq_true, if_false]
      exact ih (fun a ha => hk a (List.mem_cons_of_mem _ ha))

/-- The records with a given key among the overridden list of one rule
are exactly what the per-property resolution of that key's entry
returns, provided the style map has no repeated keys. -/
theorem filter_key_resolve_of_entry (rules : List CSSRule) (index : Nat)
    (sel key v : String) (sm : List (String × String))
    (hmem : (key, v) ∈ sm) (hnodup : (sm.map Prod.fst).Nodup) :
    ((sm.map (fun kv => resolveProperty rules index sel kv.1 kv.2)).filterMap
        id).filter (fun o => o.key == key) =
      (resolveProperty rules index sel key v).toList := by
  induction sm with
  | nil => simp at hmem
  | cons kv rest ih =>
    rcases List.mem_cons.mp hmem with heq | hmem'
    · cases heq
      simp only [List.map_cons, List.filterMap_cons, id_eq]
      have hrest : ∀ a ∈ rest, a.1 ≠ key := by
        intro a ha haeq
        have h1 : key ∈ rest.map Prod.fst := List.mem_map.mpr ⟨a, ha, haeq⟩
        have h2 := (List.nodup_cons.mp hnodup).1
        exact h2 h1
      cases hr : resolveProperty rules index sel key v with
      | none =>
        simp only [Option.toList]
        exact filter_key_resolve_of_no_entry rules index sel key rest hrest
      | some o =>
        rw [List.filter_cons]
        have hkey : o.key = key := (findPropertyOverride_some_fields _ _ _ _ _ hr).1
        have htrue : (o.key == key) = true := by
          rw [hkey]; exact beq_self_eq_true key
        rw [htrue]
        simp only [if_true, Option.toList]
        rw [filter_key_resolve_of_no_entry rules index sel key rest hrest]
    · have hne : kv.1 ≠ key := by
        intro he
        have h1 : key ∈ rest.map Prod.fst := List.mem_map.mpr ⟨(key, v), hmem', rfl⟩
        have h2 := (List.nodup_cons.mp hnodup).1
        rw [he] at h2
        exact h2 h1
      simp only [List.map_cons, List.filterMap_cons, id_eq]
      cases hr : resolveProperty rules index sel kv.1 kv.2 with
      | none => exact ih hmem' (List.nodup_cons.mp hnodup).2
      | some o =>
        rw [List.filter_cons]
        have hkey : o.key = kv.1 := (findPropertyOverride_some_fields _ _ _ _ _ hr).1
        have hfalse : (o.key == key) = false := by
          rw [hkey]; exact beq_eq_false_iff_ne.mpr hne
        rw [hfalse]
        simp only [Bool.false_eq_true, if_false]
        exact ih hmem' (List.nodup_cons.mp hnodup).2

/-- C3: when the first after-rule met in the reverse cascade scan that
declares property P is a Framework rule, exactly one override carrying
P, the intended value and the framework value is reported for that
property of the processed rule when the two canonical string forms
differ, and none when they are equal. -/
theorem C3_theorem (rules : List CSSRule) (index : Nat) (R fr : CSSRule)
    (key v : String) (mp : String × String)
    (hmem : (key, v) ∈ R.styleMap)
    (hnodup : (R.styleMap.map Prod.fst).Nodup)
    (hfirst : ((rules.drop (index + 1)).reverse).find?
        (fun q => declares q key) = some fr)
    (hb : strStartsWith fr.selectorText ".Bpk" = true)
    (hmp : fr.styleMap.find? (fun bp => bp.1 == key) = some mp) :
    (overriddenForRule rules index R).filter (fun o => o.key == key) =
      if mp.2 == v then [] else [⟨key, v, mp.2, R.selectorText⟩] := by
  unfold overriddenForRule
  rw [filter_key_resolve_of_entry rules index R.selectorText key v R.styleMap
    hmem hnodup]
  unfold resolveProperty
  rw [findPropertyOverride_of_first_backpack R.selectorText key v
    ((rules.drop (index + 1)).reverse) fr mp hfirst hb hmp]
  split
  · rfl
  · rfl

/-- C3 witness: in the .Card example the nearest after-rule declaring
color is the framework rule .Bpk_Button with the different value blue,
and the filter of the rule's overridden list at key color is the single
expected record. -/
theorem C3_witness :
    (overriddenForRule
        [⟨".Card", [("color", "red")]⟩, ⟨".Bpk_Button", [("color", "blue")]⟩]
        0 ⟨".Card", [("color", "red")]⟩).filter (fun o => o.key == "color") =
      if ("blue" == "red") then [] else [⟨"color", "red", "blue", ".Card"⟩] :=
  C3_theorem
    [⟨".Card", [("color", "red")]⟩, ⟨".Bpk_Button", [("color", "blue")]⟩] 0
    ⟨".Card", [("color", "red")]⟩ ⟨".Bpk_Button", [("color", "blue")]⟩
    "color" "red" ("color", "blue") (by decide) (by decide) (by decide)
    (by decide) (by decide)

/-- C4 counterexample: appending an Irrelevant rule (compound selector
"div .Foo", neither Framework nor a single class selector) after a
framework override changes the resolver's output: the override of .Card
by .Bpk_X disappears because the Irrelevant rule becomes the nearest
after-rule declaring color. -/
theorem C4_counterexample :
    isBackpackClassRule ⟨"div .Foo", [("color", "green")]⟩ = false ∧
    isNonBackpackClassRule ⟨"div .Foo", [("color", "green")]⟩ = false ∧
    overriddenProperties
        [⟨".Card", [("color", "red")]⟩, ⟨".Bpk_X", [("color", "blue")]⟩,
         ⟨"div .Foo", [("color", "green")]⟩] ≠
      overriddenProperties
        [⟨".Card", [("color", "red")]⟩, ⟨".Bpk_X", [("color", "blue")]⟩] := by
  decide

/-- Dropping one more rule after prepending one leaves the after-rule
list of the per-property resolution unchanged. -/
theorem resolveProperty_cons (r : CSSRule) (rules : List CSSRule) (n : Nat)
    (sel key v : String) :
    resolveProperty (r :: rules) (n + 1) sel key v =
      resolveProperty rules n sel key v := by
  unfold resolveProperty
  rw [List.drop_succ_cons]

/-- The overridden list of a rule is unchanged by prepending a rule
before it when its index moves along. -/
theorem overriddenForRule_cons (r : CSSRule) (rules : List CSSRule) (n : Nat)
    (rule : CSSRule) :
    overriddenForRule (r :: rules) (n + 1) rule =
      overriddenForRule rules n rule := by
  unfold overriddenForRule
  simp only [resolveProperty_cons]

/-- One reduce step is unchanged by prepending a rule before it when
the processed index moves along. -/
theorem overrideStep_cons (r : CSSRule) (rules : List CSSRule)
    (acc : List Override) (n : Nat) (rule : CSSRule) :
    overrideStep (r :: rules) acc (n + 1, rule) =
      overrideStep rules acc (n, rule) := by
  unfold overrideStep
  simp only [overriddenForRule_cons]

/-- Folding the reduce step over the tail with indices shifted by one,
against the extended rule list, is folding it over the tail with the
original indices against the original list. -/
theorem foldl_overrideStep_enumFrom (r : CSSRule) (rules : List CSSRule)
    (l : List CSSRule) (n : Nat) (acc : List Override) :
    (l.enumFrom (n + 1)).foldl (overrideStep (r :: rules)) acc =
      (l.enumFrom n).foldl (overrideStep rules) acc := by
  induction l generalizing n acc with
  | nil => rfl
  | cons a rest ih =>
    simp only [List.enumFrom, List.foldl_cons]
    rw [overrideStep_cons]
    exact ih (n + 1) _

/-- C4 (amended): an Irrelevant rule never initiates override
resolution — prepending one to the matched rule list leaves the
resolver's output unchanged — but Irrelevant rules do take part as
after-rules: one that becomes the last after-rule declaring a property
is treated like any non-Framework rule and suppresses the override, so
adding an Irrelevant rule after an AuthorCandidate rule can change the
output. -/
theorem C4_theorem (rules : List CSSRule) (r : CSSRule)
    (hb : isBackpackClassRule r = false)
    (hn : isNonBackpackClassRule r = false) :
    overriddenProperties (r :: rules) = overriddenProperties rules := by
  unfold overriddenProperties
  simp only [List.enum]
  simp only [List.enumFrom, List.foldl_cons]
  have hstep : overrideStep (r :: rules) [] (0, r) = [] := by
    simp [overrideStep, hb, hn]
  rw [hstep]
  exact foldl_overrideStep_enumFrom r rules rules 0 []

/-- C4 witness: prepending the Irrelevant compound-selector rule leaves
the .Card override by .Bpk_X in place. -/
theorem C4_witness :
    isBackpackClassRule ⟨"div .Foo", [("color", "green")]⟩ = false ∧
    isNonBackpackClassRule ⟨"div .Foo", [("color", "green")]⟩ = false ∧
    overriddenProperties
        (⟨"div .Foo", [("color", "green")]⟩ ::
          [⟨".Card", [("color", "red")]⟩, ⟨".Bpk_X", [("color", "blue")]⟩]) =
      overriddenProperties
        [⟨".Card", [("color", "red")]⟩, ⟨".Bpk_X", [("color", "blue")]⟩] :=
  ⟨by decide, by decide, C4_theorem _ _ (by decide) (by decide)⟩

/-- C5: a Framework rule placed before the AuthorCandidate rule is never
the reported overrider — the resolution only walks rules strictly after
the author rule's position — so when additionally no rule after that
position declares the property, no override at all is reported for it. -/
theorem C5_theorem (rules : List CSSRule) (index j : Nat) (fr : CSSRule)
    (ruleSelector key value : String)
    (_hj : j < index) (_hfr : rules.get? j = some fr)
    (_hb : isBackpackClassRule fr = true) (_hdecl : declares fr key = true)
    (hafter : ∀ q ∈ rules.drop (index + 1), declares q key = false) :
    resolveProperty rules index ruleSelector key value = none := by
  apply findPropertyOverride_of_none_declares
  rw [List.find?_eq_none]
  intro q hq
  have hfalse := hafter q (List.mem_reverse.mp hq)
  simp [hfalse]

/-- C5 witness: the framework rule .Bpk_A before .Card declares color,
nothing after .Card declares color, and no override is reported for
.Card's color. -/
theorem C5_witness :
    (0 < 1) ∧
    ([⟨".Bpk_A", [("color", "blue")]⟩, ⟨".Card", [("color", "red")]⟩,
      ⟨".Other", [("margin", "0")]⟩] : List CSSRule).get? 0 =
        some ⟨".Bpk_A", [("color", "blue")]⟩ ∧
    resolveProperty
      [⟨".Bpk_A", [("color", "blue")]⟩, ⟨".Card", [("color", "red")]⟩,
       ⟨".Other", [("margin", "0")]⟩] 1 ".Card" "color" "red" = none :=
  ⟨by decide, by decide,
   C5_theorem _ 1 0 ⟨".Bpk_A", [("color", "blue")]⟩ ".Card" "color" "red"
     (by decide) (by decide) (by decide) (by decide) (by decide)⟩

/-- The boolean a rule's selector evaluates to for an element whose
matcher is m, taking a malformed selector as not matched. -/
def matchedOk (m : String → MatchOutcome) (q : CSSRule) : Bool :=
  match m q.selectorText with
  | .ok b => b
  | .malformed => false

/-- Within one sheet, a malformed selector ends the collection: the
rules before it contribute their matches, the malformed rule and every
rule after it contribute nothing. -/
theorem collectMatchingRules_malformed (m : String → MatchOutcome)
    (pre rest : List CSSRule) (bad : CSSRule)
    (hpre : ∀ q ∈ pre, m q.selectorText ≠ MatchOutcome.malformed)
    (hbad : m bad.selectorText = MatchOutcome.malformed) :
    collectMatchingRules m (pre ++ bad :: rest) = pre.filter (matchedOk m) := by
  induction pre with
  | nil =>
    simp only [List.nil_append, List.filter_nil]
    simp [collectMatchingRules, hbad]
  | cons q pre' ih =>
    cases hm : m q.selectorText with
    | malformed => exact absurd hm (hpre q (List.mem_cons_self _ _))
    | ok b =>
      have hq : matchedOk m q = b := by simp [matchedOk, hm]
      have ih' := ih (fun a ha => hpre a (List.mem_cons_of_mem _ ha))
      cases b with
      | true =>
        rw [List.cons_append]
        simp only [collectMatchingRules, hm]
        rw [List.filter_cons_of_pos (by simp [hq])]
        rw [ih']
      | false =>
        rw [List.cons_append]
        simp only [collectMatchingRules, hm]
        rw [List.filter_cons_of_neg (by simp [hq])]
        exact ih'

/-- The sheet fold of findCssRules only ever appends to its
accumulator. -/
theorem findCssRules_foldl_acc (m : String → MatchOutcome)
    (sheets : List Sheet) (acc : List CSSRule) :
    sheets.foldl
        (fun ret sheet =>
          if sheet.accessible then ret ++ collectMatchingRules m sheet.rules
          else ret) acc =
      acc ++ findCssRules m sheets := by
  induction sheets generalizing acc with
  | nil => simp [findCssRules]
  | cons sheet rest ih =>
    rw [List.foldl_cons]
    unfold findCssRules
    rw [List.foldl_cons, ih, ih]
    cases sheet.accessible <;> simp

/-- C6 counterexample: in one accessible sheet holding a matching rule,
then a rule whose selector cannot be evaluated, then another matching
rule, findCssRules drops the last rule as well, while the claim says
only the malformed rule is excluded. -/
theorem C6_counterexample :
    findCssRules
        (fun sel => if sel == ":bad(" then .malformed else .ok true)
        [⟨true, [⟨".good1", []⟩, ⟨":bad(", []⟩, ⟨".good2", []⟩]⟩] =
      [⟨".good1", []⟩] ∧
    findCssRules
        (fun sel => if sel == ":bad(" then .malformed else .ok true)
        [⟨true, [⟨".good1", []⟩, ⟨":bad(", []⟩, ⟨".good2", []⟩]⟩] ≠
      [⟨".good1", []⟩, ⟨".good2", []⟩] := by
  decide

/-- C6 (amended): recovery from a malformed selector is local to the
style sheet, not to the single rule: within the failing sheet, the rules
before the malformed one still contribute their matches and the
malformed rule together with every later rule of that sheet is
excluded; the sheets are processed independently, so all rules of the
other sheets still participate. -/
theorem C6_theorem (m : String → MatchOutcome) (s1 s2 : List Sheet)
    (pre rest : List CSSRule) (bad : CSSRule)
    (hpre : ∀ q ∈ pre, m q.selectorText ≠ MatchOutcome.malformed)
    (hbad : m bad.selectorText = MatchOutcome.malformed) :
    collectMatchingRules m (pre ++ bad :: rest) = pre.filter (matchedOk m) ∧
    findCssRules m (s1 ++ s2) = findCssRules m s1 ++ findCssRules m s2 := by
  refine ⟨collectMatchingRules_malformed m pre rest bad hpre hbad, ?_⟩
  unfold findCssRules
  rw [List.foldl_append]
  rw [findCssRules_foldl_acc]
  rfl

/-- C6 witness: with a sheet whose second rule is malformed and a
second, inaccessible sheet, the collection keeps exactly the matching
part of the broken sheet before the failure and the sheets compose
independently. -/
theorem C6_witness :
    collectMatchingRules
        (fun sel => if sel == ":bad(" then .malformed else .ok true)
        ([⟨".good1", []⟩] ++ ⟨":bad(", []⟩ :: [⟨".good2", []⟩]) =
      [⟨".good1", []⟩].filter
        (matchedOk (fun sel => if sel == ":bad(" then .malformed else .ok true)) ∧
    findCssRules
        (fun sel => if sel == ":bad(" then .malformed else .ok true)
        ([⟨true, [⟨".good1", []⟩, ⟨":bad(", []⟩, ⟨".good2", []⟩]⟩] ++
          [⟨false, [⟨".x", []⟩]⟩]) =
      findCssRules (fun sel => if sel == ":bad(" then .malformed else .ok true)
          [⟨true, [⟨".good1", []⟩, ⟨":bad(", []⟩, ⟨".good2", []⟩]⟩] ++
        findCssRules (fun sel => if sel == ":bad(" then .malformed else .ok true)
          [⟨false, [⟨".x", []⟩]⟩] :=
  C6_theorem (fun sel => if sel == ":bad(" then .malformed else .ok true)
    [⟨true, [⟨".good1", []⟩, ⟨":bad(", []⟩, ⟨".good2", []⟩]⟩]
    [⟨false, [⟨".x", []⟩]⟩]
    [⟨".good1", []⟩] [⟨".good2", []⟩] ⟨":bad(", []⟩ (by decide) (by decide)

/-- The scheduling state is always one of: untouched, timer armed, or
timer already fired once — with the stale timer id still stored. -/
def debounceInv (s : UpdateState) : Prop :=
  s = ⟨false, false, 0⟩ ∨ s = ⟨true, true, 0⟩ ∨ s = ⟨true, false, 1⟩

/-- The scheduling invariant is preserved by every event sequence. -/
theorem runEvents_inv (evs : List DebounceEvent) (s : UpdateState)
    (h : debounceInv s) : debounceInv (runEvents s evs) := by
  induction evs generalizing s with
  | nil => exact h
  | cons e evs ih =>
    cases e with
    | mutationSignal =>
      apply ih
      rcases h with h | h | h <;> subst h <;> simp only [debounceInv] <;> decide
    | timerFire =>
      apply ih
      rcases h with h | h | h <;> subst h <;> simp only [debounceInv] <;> decide

/-- From the state the script starts in, no event sequence ever runs
update() more than once. -/
theorem runEvents_updates_le_one (evs : List DebounceEvent) :
    (runEvents initialUpdateState evs).updates ≤ 1 := by
  have h := runEvents_inv evs initialUpdateState (Or.inl rfl)
  rcases h with h | h | h <;> rw [h] <;> decide

/-- C7: the first conjunct shows the debounce half of the claim — three
mutation signals inside one settling window yield one scan when the
timer fires.  The second and third conjuncts show the code bug: after
the first window has elapsed, a later mutation signal leads to no
further scan (the stale timer id stored in updateTimeout makes every
later throttledUpdate return early), and in fact no event sequence at
all reaches two mutation-triggered scans, against the claim that every
later burst triggers exactly one new scan. -/
theorem C7_theorem :
    (runEvents initialUpdateState
        [.mutationSignal, .mutationSignal, .mutationSignal,
         .timerFire]).updates = 1 ∧
    (runEvents initialUpdateState
        [.mutationSignal, .timerFire, .mutationSignal,
         .timerFire]).updates = 1 ∧
    ∀ evs : List DebounceEvent,
      (runEvents initialUpdateState evs).updates ≤ 1 :=
  ⟨by decide, by decide, runEvents_updates_le_one⟩

/-- Running the handler loop extends the invocation record by every
handler's identifier and the log by the identifiers of the throwing
handlers. -/
theorem sendLoop_spec (hs : List Handler) (t : SendTrace) :
    (sendLoop hs t).invoked = t.invoked ++ hs.map (fun h => h.hid) ∧
    (sendLoop hs t).logged =
      t.logged ++ (hs.filter (fun h => h.throws)).map (fun h => h.hid) := by
  induction hs generalizing t with
  | nil => simp [sendLoop]
  | cons h rest ih =>
    cases ht : h.throws with
    | false =>
      simp only [sendLoop, invokeHandler, ht, Bool.false_eq_true, if_false]
      obtain ⟨h1, h2⟩ := ih { t with invoked := t.invoked ++ [h.hid] }
      constructor
      · rw [h1]
        simp
      · rw [h2]
        rw [List.filter_cons_of_neg (by simp [ht])]
    | true =>
      simp only [sendLoop, invokeHandler, ht, if_true]
      obtain ⟨h1, h2⟩ :=
        ih ⟨t.invoked ++ [h.hid], t.logged ++ [h.hid]⟩
      constructor
      · rw [h1]
        simp
      · rw [h2]
        rw [List.filter_cons_of_pos (by simp [ht])]
        simp

/-- C8: dispatching an event to registered listeners invokes every
listener in registration order whether or not earlier ones throw, logs
each thrown exception, and the dispatching call still returns its usual
(undefined) value — the send model is total, so no handler exception
escapes to abort the surrounding scan. -/
theorem C8_theorem (hs : List Handler) :
    (send true (some hs)).1 = () ∧
    (send true (some hs)).2.invoked = hs.map (fun h => h.hid) ∧
    (send true (some hs)).2.logged =
      (hs.filter (fun h => h.throws)).map (fun h => h.hid) := by
  refine ⟨rfl, ?_, ?_⟩
  · have h := (sendLoop_spec hs ⟨[], []⟩).1
    simpa [send] using h
  · have h := (sendLoop_spec hs ⟨[], []⟩).2
    simpa [send] using h

/-- C9: every result scan() returns has a non-empty overridden-property
list — the final filter removes the entries whose list is empty. -/
theorem C9_theorem (elementMatches : Element → String → MatchOutcome)
    (sheets : List Sheet) (doc : List Element) (res : ScanResult)
    (h : res ∈ scan elementMatches sheets doc) :
    0 < res.overriddenProperties.length := by
  simp only [scan] at h
  rw [List.mem_filter] at h
  exact of_decide_eq_true h.2

/-- C9 witness: the .Card example produces a surfaced result, and its
override list is non-empty. -/
theorem C9_witness :
    (⟨⟨"div", ["Card"]⟩, [⟨"color", "red", "blue", ".Card"⟩]⟩ : ScanResult) ∈
        scan (fun _ sel => .ok (sel == ".Card" || sel == ".Bpk_Button"))
          [⟨true, [⟨".Card", [("color", "red")]⟩,
                   ⟨".Bpk_Button", [("color", "blue")]⟩]⟩]
          [⟨"div", ["Card"]⟩] ∧
    0 < (⟨⟨"div", ["Card"]⟩,
          [⟨"color", "red", "blue", ".Card"⟩]⟩ : ScanResult).overriddenProperties.length :=
  ⟨by decide,
   C9_theorem (fun _ sel => .ok (sel == ".Card" || sel == ".Bpk_Button"))
     [⟨true, [⟨".Card", [("color", "red")]⟩,
              ⟨".Bpk_Button", [("color", "blue")]⟩]⟩]
     [⟨"div", ["Card"]⟩]
     ⟨⟨"div", ["Card"]⟩, [⟨"color", "red", "blue", ".Card"⟩]⟩ (by decide)⟩

/-- C10: every result scan() returns concerns an element whose tag name
is in the querySelectorAll list, and the scan output is unchanged when
the document is restricted beforehand to the elements with those tags —
elements of any other tag are never examined nor reported. -/
theorem C10_theorem (elementMatches : Element → String → MatchOutcome)
    (sheets : List Sheet) (doc : List Element) :
    (∀ res ∈ scan elementMatches sheets doc,
        scanTagNames.contains res.element.tagName = true) ∧
    scan elementMatches sheets doc =
      scan elementMatches sheets
        (doc.filter (fun e => scanTagNames.contains e.tagName)) := by
  constructor
  · intro res h
    simp only [scan] at h
    rw [List.mem_filter] at h
    obtain ⟨h1, _⟩ := h
    rw [List.mem_filterMap] at h1
    obtain ⟨a, ha, hid⟩ := h1
    rw [List.mem_map] at ha
    obtain ⟨e, he, hfe⟩ := ha
    rw [id_eq] at hid
    have hfe' :
        (if !hasOwnNonBackpackClass e.classList then none
         else
           some { element := e,
                  overriddenProperties :=
                    overriddenProperties
                      (findCssRules (elementMatches e) sheets) }) = some res := by
      rw [hfe]; exact hid
    split at hfe'
    · simp at hfe'
    · cases hfe'
      simpa using (List.mem_filter.mp he).2
  · have hidem :
        (doc.filter (fun e => scanTagNames.contains e.tagName)).filter
            (fun e => scanTagNames.contains e.tagName) =
          doc.filter (fun e => scanTagNames.contains e.tagName) := by
      rw [List.filter_filter]
      simp [Bool.and_self]
    simp only [scan]
    rw [hidem]

/-- C10 witness: with a p element and a div element carrying the same
class, only the div is reported, its tag is in the allowed list, and
pre-filtering the document by the allowed tags leaves the output
unchanged. -/
theorem C10_witness :
    scanTagNames.contains
        ((⟨⟨"div", ["Card"]⟩, [⟨"color", "red", "blue", ".Card"⟩]⟩ :
            ScanResult)).element.tagName = true ∧
    scan (fun _ sel => .ok (sel == ".Card" || sel == ".Bpk_Button"))
        [⟨true, [⟨".Card", [("color", "red")]⟩,
                 ⟨".Bpk_Button", [("color", "blue")]⟩]⟩]
        [⟨"p", ["Card"]⟩, ⟨"div", ["Card"]⟩] =
      scan (fun _ sel => .ok (sel == ".Card" || sel == ".Bpk_Button"))
        [⟨true, [⟨".Card", [("color", "red")]⟩,
                 ⟨".Bpk_Button", [("color", "blue")]⟩]⟩]
        ([⟨"p", ["Card"]⟩, ⟨"div", ["Card"]⟩].filter
          (fun e => scanTagNames.contains e.tagName)) :=
  ⟨(C10_theorem (fun _ sel => .ok (sel == ".Card" || sel == ".Bpk_Button"))
      [⟨true, [⟨".Card", [("color", "red")]⟩,
               ⟨".Bpk_Button", [("color", "blue")]⟩]⟩]
      [⟨"p", ["Card"]⟩, ⟨"div", ["Card"]⟩]).1 _ (by decide),
   (C10_theorem (fun _ sel => .ok (sel == ".Card" || sel == ".Bpk_Button"))
      [⟨true, [⟨".Card", [("color", "red")]⟩,
               ⟨".Bpk_Button", [("color", "blue")]⟩]⟩]
      [⟨"p", ["Card"]⟩, ⟨"div", ["Card"]⟩]).2⟩

end BackpackOverrideDetector
